import Mathlib

/-!
Verification development for the `media-shader` web component
(`src/media-shader.js`): a shallow embedding of the rendering and
resource lifecycle core, and proofs about its claims.

Modelling conventions:
* JavaScript numbers are embedded as rationals (`ℚ`) or integers (`ℤ`);
  `Math.round` is `jsRound` (floor of `x + 1/2`, the JS semantics for
  finite inputs).
* The WebGL driver is an oracle (`GLDriver`): compile and link outcomes
  and uniform-location resolution are parameters, since they depend on
  the GPU.  Program objects are numbered by an allocation counter, and a
  ledger `deletedPrograms` records every `gl.deleteProgram` call.
* GL calls that only talk to the GPU are recorded as a trace
  (`List GLCmd`); component-state mutations are explicit state passing
  on the record `MS`, whose fields mirror the instance fields of the
  `MediaShader` class.
* The host scheduler (`requestAnimationFrame` / `cancelAnimationFrame`)
  is modelled by the fields `pending` (queue of scheduled frame ids),
  `animationFrame` (the stored handle) and `nextFrame` (id counter).
* DOM-only effects (shadow root, style, accessibility attributes,
  actual video playback) are not modelled; no claim concerns them.
-/

namespace MediaShaderModel

/-- JSON-like values, the result of parsing the `uniforms` attribute.
(`JSON.parse` results; `null` is a JS value of type object.) -/
inductive JVal : Type where
  | num (q : ℚ)
  | bool (b : Bool)
  | str (s : String)
  | arr (elems : List JVal)
  | obj (fields : List (String × JVal))
  | null

/-- A parsed `uniforms` object: entries of `Object.entries`. -/
abbrev UniformObj := List (String × JVal)

/-- The two WebGL shader stages. -/
inductive ShaderKind : Type where
  | vertex
  | fragment
deriving DecidableEq

/-- Oracle for the WebGL driver: compile and link outcomes, and
uniform-location lookup per linked program id. -/
structure GLDriver where
  compileOk : ShaderKind → String → Bool
  linkOk : String → String → Bool
  uniformLoc : ℕ → String → Option ℕ

/-- GL commands issued to the driver (the observable GPU trace). -/
inductive GLCmd : Type where
  | viewport (w h : ℤ)
  | clear
  | useProgram (p : ℕ)
  | bindTexture
  | texImage2D
  | uniform1i (loc : ℕ) (v : ℤ)
  | uniform1f (loc : ℕ) (v : ℚ)
  | uniform2f (loc : ℕ) (a b : JVal)
  | uniform3f (loc : ℕ) (a b c : JVal)
  | uniform4f (loc : ℕ) (a b c d : JVal)
  | uniformMatrix3fv (loc : ℕ) (transpose : Bool) (vals : List JVal)
  | uniformMatrix4fv (loc : ℕ) (transpose : Bool) (vals : List JVal)
  | uniform4fv (loc : ℕ) (a b c d : ℚ)
  | drawArrays

/-- A media element created by `loadMedia`: its kind, its natural pixel
dimensions (`naturalWidth || videoWidth`, 0 while unknown — JS falsy),
and its source URL. -/
structure MediaEl where
  isVideo : Bool
  natW : ℕ
  natH : ℕ
  srcUrl : String
deriving DecidableEq

/-- The `_mouseData` Float32Array: hover x, hover y, click x, click y. -/
structure Mouse4 where
  x : ℚ
  y : ℚ
  z : ℚ
  w : ℚ
deriving DecidableEq

/-- Component state: the mutable instance fields of the `MediaShader`
class that the claims concern. -/
structure MS where
  glPresent : Bool
  program : Option ℕ
  nextProg : ℕ
  deletedPrograms : List ℕ
  uniforms : UniformObj
  uniformLocations : List (String × ℕ)
  hasTexture : Bool
  texture : Bool
  mediaElement : Option MediaEl
  animationFrame : Option ℕ
  pending : List ℕ
  nextFrame : ℕ
  canvasW : ℤ
  canvasH : ℤ
  styleW : Option ℤ
  styleH : Option ℤ
  widthAttr : Option ℤ
  heightAttr : Option ℤ
  naturalW : Option ℕ
  naturalH : Option ℕ
  isMouseDown : Bool
  mouse : Mouse4
  isLoaded : Bool
  startTime : ℚ

/-- The fixed vertex shader source (`this.vertexShader`); its GLSL text
never influences control flow, only the driver oracle consumes it. -/
def vertexShaderSource : String := "builtin-vertex-shader"

/-- The built-in animated-gradient fragment shader
(`this.defaultFragmentShader`); text likewise opaque to the model. -/
def defaultFragmentShaderSource : String := "builtin-default-fragment-shader"

/-- JS truthiness of a nullable string (null and the empty string are
falsy). -/
def jsTruthyStr : Option String → Bool
  | none => false
  | some s => s != ""

/-- JS truthiness of a nullable number (null, NaN — represented as
`none` — and 0 are falsy). -/
def jsTruthyInt : Option ℤ → Bool
  | none => false
  | some w => w != 0

/-- JS coercion of a nullable number to a number under arithmetic
(`null` coerces to 0). -/
def jsNumOf : Option ℤ → ℤ
  | none => 0
  | some w => w

/-- `Math.round` on finite numbers: floor of `x + 1/2`. -/
def jsRound (q : ℚ) : ℤ := ⌊q + 1 / 2⌋

/-- `Map.set` on an association list: replace the first binding of the
key, else append. -/
def mapSet (m : List (String × ℕ)) (k : String) (v : ℕ) : List (String × ℕ) :=
  match m with
  | [] => [(k, v)]
  | (k1, v1) :: rest => if k1 = k then (k, v) :: rest else (k1, v1) :: mapSet rest k v

/-- `Map.get` on an association list. -/
def findLoc (m : List (String × ℕ)) (k : String) : Option ℕ :=
  match m with
  | [] => none
  | (k1, v1) :: rest => if k1 = k then some v1 else findLoc rest k

/-- `cancelAnimationFrame(id)`: drop the id from the host queue of
pending frame callbacks (a no-op if it already fired). -/
def cancelFrame (st : MS) (id : ℕ) : MS :=
  { st with pending := st.pending.erase id }

/-- `createShader(type, source)`: compile one stage; `null` on failure.
(`gl.createShader` allocation failure is not modelled; the returned
shader object itself carries no data the claims use.) -/
def createShader (d : GLDriver) (st : MS) (kind : ShaderKind) (source : String) :
    Option Unit :=
  if st.glPresent = false then none
  else if d.compileOk kind source then some () else none

/-- The `for (const name of Object.keys(this._uniforms))` loop of
`updateUniformLocations`: resolve each user uniform name against the
program `pid`, dropping names without a location (warn only). -/
def addCustomLocs (d : GLDriver) (pid : ℕ) :
    UniformObj → List (String × ℕ) → List (String × ℕ)
  | [], m => m
  | (name, _) :: rest, m =>
    match d.uniformLoc pid name with
    | some loc => addCustomLocs d pid rest (mapSet m name loc)
    | none => addCustomLocs d pid rest m

/-- One built-in resolution step of `updateUniformLocations`. -/
def addBuiltinLoc (d : GLDriver) (pid : ℕ) (name : String)
    (m : List (String × ℕ)) : List (String × ℕ) :=
  match d.uniformLoc pid name with
  | some loc => mapSet m name loc
  | none => m

/-- `updateUniformLocations()`: clear the map, resolve every user
uniform name, then the five built-ins, against the active program
`pid` (callers invoke it only with an active program). -/
def updateUniformLocations (d : GLDriver) (pid : ℕ) (st : MS) : MS :=
  let m0 : List (String × ℕ) := []
  let m1 := addCustomLocs d pid st.uniforms m0
  let m2 := addBuiltinLoc d pid "uResolution" m1
  let m3 := addBuiltinLoc d pid "uTexture" m2
  let m4 := addBuiltinLoc d pid "uTime" m3
  let m5 := addBuiltinLoc d pid "uMouse" m4
  let m6 := addBuiltinLoc d pid "uHasTexture" m5
  { st with uniformLocations := m6 }

/-- The value-shape dispatch of `applyUniforms` (the `Array.isArray` /
`switch (value.length)` / `typeof` chain), as the GL commands it
issues for one entry at a resolved location. -/
def dispatchCmds (loc : ℕ) : JVal → List GLCmd
  | .arr [a, b] => [.uniform2f loc a b]
  | .arr [a, b, c] => [.uniform3f loc a b c]
  | .arr [a, b, c, d] => [.uniform4f loc a b c d]
  | .arr xs =>
    if xs.length = 9 then [.uniformMatrix3fv loc false xs]
    else if xs.length = 16 then [.uniformMatrix4fv loc false xs]
    else []
  | .num q => if q.den = 1 then [.uniform1i loc q.num] else [.uniform1f loc q]
  | .bool b => [.uniform1i loc (if b then 1 else 0)]
  | _ => []

/-- The `for (const [name, value] of Object.entries(this._uniforms))`
loop of `applyUniforms`: entries without a resolved location are
skipped (warn only). -/
def applyUniformsAux (locs : List (String × ℕ)) : UniformObj → List GLCmd
  | [] => []
  | (name, v) :: rest =>
    match findLoc locs name with
    | none => applyUniformsAux locs rest
    | some loc => dispatchCmds loc v ++ applyUniformsAux locs rest

/-- `applyUniforms()`: bail without GL context or program, else select
the program and push every stored uniform by value shape. -/
def applyUniforms (st : MS) : List GLCmd :=
  match st.glPresent, st.program with
  | true, some p => .useProgram p :: applyUniformsAux st.uniformLocations st.uniforms
  | _, _ => []

/-- `updateShader(fragmentShaderSource)`: compile both stages, link a
fresh program, and only on successful link delete the old program and
swap, re-resolving uniform locations and re-applying uniforms. -/
def updateShader (d : GLDriver) (st : MS) (fragmentShaderSource : String) :
    MS × List GLCmd :=
  if st.glPresent = false then (st, [])
  else
    match createShader d st .vertex vertexShaderSource,
          createShader d st .fragment fragmentShaderSource with
    | some _, some _ =>
      let newProgram := st.nextProg
      let st1 := { st with nextProg := st.nextProg + 1 }
      if d.linkOk vertexShaderSource fragmentShaderSource = false then (st1, [])
      else
        let st2 :=
          match st1.program with
          | some old => { st1 with deletedPrograms := old :: st1.deletedPrograms }
          | none => st1
        let st3 := { st2 with program := some newProgram }
        let st4 := updateUniformLocations d newProgram st3
        (st4, applyUniforms st4)
    | _, _ => (st, [])

/-- `updateUniforms(uniformsStr)`: `uniformsStr ? JSON.parse(...) : {}`
inside a try/catch.  `parse` is the JSON.parse oracle (`none` models a
thrown parse error, caught and logged, leaving all state untouched). -/
def updateUniforms (parse : String → Option UniformObj) (d : GLDriver)
    (st : MS) (uniformsStr : Option String) : MS × List GLCmd :=
  let parsed : Option UniformObj :=
    if jsTruthyStr uniformsStr then parse (uniformsStr.getD "") else some []
  match parsed with
  | none => (st, [])
  | some newUniforms =>
    let st1 := { st with uniforms := newUniforms }
    match st1.program with
    | some p =>
      let st2 := updateUniformLocations d p st1
      (st2, applyUniforms st2)
    | none => (st1, [])

/-- `initWebGL()` of `media-shader.js`: compile the fixed vertex and
default fragment shader, create and link the initial program (deleted
again on link failure), and set up the quad buffers.  Note that this
variant never touches `_uniformLocations`. -/
def initWebGL (d : GLDriver) (st : MS) : MS :=
  if st.glPresent = false then st
  else
    match createShader d st .vertex vertexShaderSource,
          createShader d st .fragment defaultFragmentShaderSource with
    | some _, some _ =>
      let newProgram := st.nextProg
      let st1 := { st with program := some newProgram, nextProg := st.nextProg + 1 }
      if d.linkOk vertexShaderSource defaultFragmentShaderSource = false then
        { st1 with program := none, deletedPrograms := newProgram :: st1.deletedPrograms }
      else st1
    | _, _ => st

/-- `createTexture()`: allocate the 2D texture and set its parameters
(the old handle is deleted first; parameter calls are GPU-only). -/
def createTexture (st : MS) : MS :=
  if st.glPresent = false then st
  else { st with texture := true }

/-- `updateCanvasSize()` of `media-shader.js`, at device pixel ratio
`dpr`: derive CSS dimensions from the attributes and the natural media
dimensions (aspect-ratio preserving when exactly one is given), then
set the backing store to the CSS size scaled by `dpr`. -/
def updateCanvasSize (dpr : ℚ) (st : MS) : MS :=
  let cssWidth := st.widthAttr
  let cssHeight := st.heightAttr
  match st.mediaElement with
  | some m =>
    let naturalWidth := m.natW
    let naturalHeight := m.natH
    if naturalWidth ≠ 0 ∧ naturalHeight ≠ 0 then
      let dims : ℤ × ℤ :=
        if ¬ jsTruthyInt cssWidth ∧ ¬ jsTruthyInt cssHeight then
          ((naturalWidth : ℤ), (naturalHeight : ℤ))
        else if jsTruthyInt cssWidth ∧ ¬ jsTruthyInt cssHeight then
          (jsNumOf cssWidth,
           jsRound ((jsNumOf cssWidth : ℚ) * ((naturalHeight : ℚ) / (naturalWidth : ℚ))))
        else if ¬ jsTruthyInt cssWidth ∧ jsTruthyInt cssHeight then
          (jsRound ((jsNumOf cssHeight : ℚ) * ((naturalWidth : ℚ) / (naturalHeight : ℚ))),
           jsNumOf cssHeight)
        else (jsNumOf cssWidth, jsNumOf cssHeight)
      { st with
        naturalW := some naturalWidth, naturalH := some naturalHeight,
        styleW := some dims.1, styleH := some dims.2,
        canvasW := jsRound ((dims.1 : ℚ) * dpr),
        canvasH := jsRound ((dims.2 : ℚ) * dpr) }
    else
      -- natural dimensions still unknown: the sizing block is skipped
      -- and the raw attribute values reach the backing-store assignment
      -- (JS null coerces to 0 under arithmetic)
      { st with
        canvasW := jsRound ((jsNumOf cssWidth : ℚ) * dpr),
        canvasH := jsRound ((jsNumOf cssHeight : ℚ) * dpr) }
  | none =>
    let dims : ℤ × ℤ :=
      if ¬ jsTruthyInt cssWidth ∧ ¬ jsTruthyInt cssHeight then (300, 150)
      else if jsTruthyInt cssWidth ∧ ¬ jsTruthyInt cssHeight then
        (jsNumOf cssWidth, jsRound ((jsNumOf cssWidth : ℚ) / 2))
      else if ¬ jsTruthyInt cssWidth ∧ jsTruthyInt cssHeight then
        (jsNumOf cssHeight * 2, jsNumOf cssHeight)
      else (jsNumOf cssWidth, jsNumOf cssHeight)
    { st with
      canvasW := jsRound ((dims.1 : ℚ) * dpr),
      canvasH := jsRound ((dims.2 : ℚ) * dpr) }

/-- The bail branch at the top of the `render` closure: cancel the
stored handle (a no-op when that frame already fired) and clear it, so
the loop is stopped. -/
def renderBail (st : MS) : MS :=
  let st1 :=
    match st.animationFrame with
    | some id => cancelFrame st id
    | none => st
  { st1 with animationFrame := none }

/-- One execution of the `render` closure of `startRenderLoop` at time
`now`: bail to stopped when context or program is missing; otherwise
clear, re-upload the media texture if a media element and texture
exist, push the built-in uniforms, apply the custom uniforms, draw the
quad, and schedule the next frame. -/
def renderBody (now : ℚ) (st : MS) : MS × List GLCmd :=
  match st.glPresent, st.program with
  | true, some p =>
    -- if (this.mediaElement && this.texture) re-upload and set the flag
    let doUpload := st.mediaElement.isSome && st.texture
    let hasTex := if doUpload then true else st.hasTexture
    -- inside `if (uMouse)`, while the button is held the click
    -- components are forced positive before the uniform is pushed
    let mouseNow :=
      if (findLoc st.uniformLocations "uMouse").isSome && st.isMouseDown then
        { st.mouse with z := |st.mouse.z|, w := |st.mouse.w| }
      else st.mouse
    let tr : List GLCmd :=
      [.viewport st.canvasW st.canvasH, .clear, .useProgram p]
      ++ (if doUpload then [.bindTexture, .texImage2D] else [])
      ++ (match findLoc st.uniformLocations "uResolution" with
          | some loc => [.uniform2f loc (.num (st.canvasW : ℚ)) (.num (st.canvasH : ℚ))]
          | none => [])
      ++ (match findLoc st.uniformLocations "uTexture" with
          | some loc => [.uniform1i loc 0]
          | none => [])
      ++ (match findLoc st.uniformLocations "uHasTexture" with
          | some loc => [.uniform1i loc (if hasTex then 1 else 0)]
          | none => [])
      ++ (match findLoc st.uniformLocations "uTime" with
          | some loc => [.uniform1f loc ((now - st.startTime) / 1000)]
          | none => [])
      ++ (match findLoc st.uniformLocations "uMouse" with
          | some loc => [.uniform4fv loc mouseNow.x mouseNow.y mouseNow.z mouseNow.w]
          | none => [])
    -- applyUniforms reads only fields this frame did not change
    (({ st with
        hasTexture := hasTex,
        mouse := mouseNow,
        animationFrame := some st.nextFrame,
        pending := st.pending ++ [st.nextFrame],
        nextFrame := st.nextFrame + 1 } : MS),
     tr ++ applyUniforms st ++ [.drawArrays])
  | _, _ => (renderBail st, [])

/-- `startRenderLoop()`: refuse without context or program; otherwise
cancel any prior pending schedule and run the render closure once
(which reschedules itself). -/
def startRenderLoop (now : ℚ) (st : MS) : MS × List GLCmd :=
  match st.glPresent, st.program with
  | true, some _ =>
    let st1 :=
      match st.animationFrame with
      | some id => cancelFrame st id
      | none => st
    renderBody now st1
  | _, _ => (st, [])

/-- `_onMouseMove(event)`: track the hover position normalized to the
bounding box, and the click position too while the button is held. -/
def onMouseMove (clientX clientY left top width height : ℚ) (st : MS) : MS :=
  let m0 := (clientX - left) / width
  let m1 := (clientY - top) / height
  let mouse1 := { st.mouse with x := m0, y := m1 }
  let mouse2 :=
    if st.isMouseDown then { mouse1 with z := mouse1.x, w := mouse1.y } else mouse1
  { st with mouse := mouse2 }

/-- `_onMouseDown(event)`: set the held flag and store the normalized
click position. -/
def onMouseDown (clientX clientY left top width height : ℚ) (st : MS) : MS :=
  { st with
    isMouseDown := true,
    mouse := { st.mouse with
               z := (clientX - left) / width,
               w := (clientY - top) / height } }

/-- `_onMouseUp()`: clear the held flag and make the click position
components the negation of their absolute values. -/
def onMouseUp (st : MS) : MS :=
  { st with
    isMouseDown := false,
    mouse := { st.mouse with z := -|st.mouse.z|, w := -|st.mouse.w| } }

/-- The mouse event types the component listens to
(`connectedCallback`). -/
inductive EventType : Type where
  | mousemove
  | mousedown
  | mouseup
  | mouseleave
deriving DecidableEq

/-- The listener table registered in `connectedCallback`: `mouseleave`
is wired to the same `_onMouseUp` handler as `mouseup`. -/
def listenerFor : EventType → (ℚ → ℚ → ℚ → ℚ → ℚ → ℚ → MS → MS)
  | .mousemove => onMouseMove
  | .mousedown => onMouseDown
  | .mouseup => fun _ _ _ _ _ _ st => onMouseUp st
  | .mouseleave => fun _ _ _ _ _ _ st => onMouseUp st

/-- Dispatch one mouse event (client coordinates and bounding box) to
the registered listener. -/
def dispatchEvent (t : EventType) (clientX clientY left top width height : ℚ)
    (st : MS) : MS :=
  listenerFor t clientX clientY left top width height st

/-- The media-type classification of `loadMedia`
(`/\.(mp4|webm|ogg)$/i`). -/
def isVideoSrc (s : String) : Bool :=
  (s.toLower.endsWith ".mp4" || s.toLower.endsWith ".webm" || s.toLower.endsWith ".ogg")

/-- The cleanup-and-create part of `loadMedia` for a genuinely new
source: cancel the pending frame and detach the old media element (only
when one existed), then create the fresh element with still-unknown
natural dimensions. -/
def loadMediaNew (st : MS) (s : String) : MS :=
  let st1 :=
    match st.mediaElement with
    | some _ =>
      let st2 :=
        match st.animationFrame with
        | some id => { cancelFrame st id with animationFrame := none }
        | none => st
      { st2 with mediaElement := none, hasTexture := false }
    | none => st
  { st1 with mediaElement := some { isVideo := isVideoSrc s, natW := 0, natH := 0, srcUrl := s } }

/-- The synchronous prefix of `loadMedia(src)`: falsy source just drops
the texture-presence flag; no GL context refuses; an identical source
reattaches the existing element and restarts rendering; otherwise the
old element is torn down and the new one created (its load completion
and error are separate asynchronous events). -/
def loadMediaStart (now dpr : ℚ) (st : MS) (src : Option String) : MS :=
  if jsTruthyStr src = false then { st with hasTexture := false }
  else
    let s := src.getD ""
    if st.glPresent = false then st
    else
      match st.mediaElement with
      | some m =>
        if m.srcUrl = s then
          let st1 := { st with hasTexture := true }
          let st2 := updateCanvasSize dpr st1
          let st3 := createTexture st2
          (startRenderLoop now st3).1
        else loadMediaNew st s
      | none => loadMediaNew st s

/-- The load handler of `loadMedia` (async completion): guard against a
removed media element; record the now-known natural dimensions, resize
the canvas, create the texture, and start the render loop. -/
def mediaLoadHandler (now dpr : ℚ) (nw nh : ℕ) (st : MS) : MS :=
  match st.mediaElement with
  | none => st
  | some m =>
    let st1 := { st with mediaElement := some { m with natW := nw, natH := nh } }
    let st2 := updateCanvasSize dpr st1
    let st3 := createTexture st2
    (startRenderLoop now st3).1

/-- The error path of `loadMedia`: remove the partially created media
element. -/
def mediaLoadError (st : MS) : MS :=
  match st.mediaElement with
  | some _ => { st with mediaElement := none }
  | none => st

/-- `cleanup()`: cancel the frame loop, delete texture and program
(recorded in the deletion ledger), clear the uniform-location map,
release the context, and mark the component unloaded. -/
def cleanup (st : MS) : MS :=
  if st.isLoaded = false then st
  else
    let st1 :=
      match st.animationFrame with
      | some id => { cancelFrame st id with animationFrame := none }
      | none => st
    if st1.glPresent then
      { st1 with
        texture := false,
        deletedPrograms :=
          (match st1.program with
           | some p => p :: st1.deletedPrograms
           | none => st1.deletedPrograms),
        program := none,
        uniformLocations := [],
        glPresent := false,
        isLoaded := false }
    else { st1 with isLoaded := false }

/-- `initializeComponent()` up to the point where the component is
marked loaded: recreate the canvas, obtain a context (`glOk` is the
host outcome), and run `initWebGL`.  The subsequent initial attribute
processing and media load are the ordinary operations and are modelled
as separate steps. -/
def initializeComponent (d : GLDriver) (glOk : Bool) (st : MS) : MS :=
  if st.isLoaded then st
  else
    let st1 := { st with glPresent := glOk }
    if glOk = false then st1
    else
      let st2 := initWebGL d st1
      { st2 with isLoaded := true }

/-- The uniform dispatch table as the specification words it: length
2/3/4 arrays are float vectors, length 9/16 arrays are 3x3/4x4 matrices
without transposition (column-major), integers are integer uniforms,
non-integer numbers float uniforms, booleans 0/1 integers, and every
other shape is skipped. -/
def dispatchSpec (loc : ℕ) (v : JVal) : Option GLCmd :=
  match v with
  | .arr [a, b] => some (.uniform2f loc a b)
  | .arr [a, b, c] => some (.uniform3f loc a b c)
  | .arr [a, b, c, d] => some (.uniform4f loc a b c d)
  | .arr xs =>
    if xs.length = 9 then some (.uniformMatrix3fv loc false xs)
    else if xs.length = 16 then some (.uniformMatrix4fv loc false xs)
    else none
  | .num q => if q.den = 1 then some (.uniform1i loc q.num) else some (.uniform1f loc q)
  | .bool b => some (.uniform1i loc (if b then 1 else 0))
  | _ => none

/-- The specification reading of `applyUniforms`: one dispatched
command per stored entry with a resolved location, in order. -/
def applyUniformsSpec (st : MS) : List GLCmd :=
  match st.glPresent, st.program with
  | true, some p =>
    .useProgram p ::
      st.uniforms.filterMap
        (fun nv => (findLoc st.uniformLocations nv.1).bind (fun loc => dispatchSpec loc nv.2))
  | _, _ => []

/-- One observable operation of the component, as a step relation on
component states.  The constructors cover the attribute-change
reactions, the render-loop entry points, one host frame tick, the
lifecycle transitions, the media-load events (whose asynchronous
completions may fire in any later state) and the mouse listeners; this
is a superset of the sequences the browser can actually produce, so an
invariant over it covers every real execution. -/
inductive Step (parse : String → Option UniformObj) (d : GLDriver) : MS → MS → Prop where
  | attrShader (st : MS) (f : String) :
      Step parse d st (updateShader d st f).1
  | attrUniforms (st : MS) (u : Option String) :
      Step parse d st (updateUniforms parse d st u).1
  | attrWidth (st : MS) (v : Option ℤ) (dpr : ℚ) :
      Step parse d st (updateCanvasSize dpr { st with widthAttr := v })
  | attrHeight (st : MS) (v : Option ℤ) (dpr : ℚ) :
      Step parse d st (updateCanvasSize dpr { st with heightAttr := v })
  | startLoop (st : MS) (now : ℚ) :
      Step parse d st (startRenderLoop now st).1
  | frameTick (st : MS) (now : ℚ) (id : ℕ) (hid : id ∈ st.pending) :
      Step parse d st (renderBody now { st with pending := st.pending.erase id }).1
  | doCleanup (st : MS) :
      Step parse d st (cleanup st)
  | initComp (st : MS) (glOk : Bool) :
      Step parse d st (initializeComponent d glOk st)
  | mediaStart (st : MS) (src : Option String) (now dpr : ℚ) :
      Step parse d st (loadMediaStart now dpr st src)
  | mediaLoaded (st : MS) (now dpr : ℚ) (nw nh : ℕ) :
      Step parse d st (mediaLoadHandler now dpr nw nh st)
  | mediaError (st : MS) :
      Step parse d st (mediaLoadError st)
  | mouseEvent (st : MS) (t : EventType) (cx cy l tp w h : ℚ) :
      Step parse d st (dispatchEvent t cx cy l tp w h st)

/-- The freshly constructed component: the field initialization of the
class constructor. -/
def baseState : MS where
  glPresent := false
  program := none
  nextProg := 0
  deletedPrograms := []
  uniforms := []
  uniformLocations := []
  hasTexture := false
  texture := false
  mediaElement := none
  animationFrame := none
  pending := []
  nextFrame := 0
  canvasW := 300
  canvasH := 150
  styleW := none
  styleH := none
  widthAttr := none
  heightAttr := none
  naturalW := none
  naturalH := none
  isMouseDown := false
  mouse := ⟨0, 0, 0, 0⟩
  isLoaded := false
  startTime := 0

/-- States reachable from the fresh component by any sequence of
operations. -/
def Reachable (parse : String → Option UniformObj) (d : GLDriver) (st : MS) : Prop :=
  Relation.ReflTransGen (Step parse d) baseState st

/-- The render-loop scheduling invariant: a stored frame handle exists
only while both context and program do, at most one frame callback is
pending at the host, every pending callback is the stored one, and an
uninitialized component has neither context nor handle. -/
def LoopInv (st : MS) : Prop :=
  (∀ id, st.animationFrame = some id → st.glPresent = true ∧ st.program.isSome = true)
  ∧ st.pending.length ≤ 1
  ∧ (∀ id, id ∈ st.pending → st.animationFrame = some id)
  ∧ (st.isLoaded = false → st.glPresent = false ∧ st.animationFrame = none)

/-- A JSON.parse oracle that fails on every string. -/
def parseNone : String → Option UniformObj := fun _ => none

/-- A driver on which every compile and link succeeds and every uniform
name resolves (to location 5). -/
def driverAll : GLDriver where
  compileOk := fun _ _ => true
  linkOk := fun _ _ => true
  uniformLoc := fun _ _ => some 5

/-- A driver on which every shader compile fails. -/
def driverNoCompile : GLDriver where
  compileOk := fun _ _ => false
  linkOk := fun _ _ => true
  uniformLoc := fun _ _ => none

/-- A loaded 640 by 360 image element. -/
def imageMedia : MediaEl where
  isVideo := false
  natW := 640
  natH := 360
  srcUrl := "image.png"

/-- A component state with an initialized context, an active program
and a loaded image whose texture has been sampled (the state after a
successful `loadMedia` of an image once a frame has run). -/
def loadedState : MS :=
  { baseState with
    glPresent := true
    program := some 0
    nextProg := 1
    isLoaded := true
    uniformLocations := [("uHasTexture", 2)]
    mediaElement := some imageMedia
    texture := true
    hasTexture := true }

/-- The loaded-image state additionally configured with width 100 and
no height. -/
def widthOnlyState : MS := { loadedState with widthAttr := some 100, heightAttr := none }

/-- A component state holding one previously configured custom
uniform. -/
def oneUniformState : MS := { baseState with uniforms := [("a", JVal.num 1)] }

/-- A fresh component state right after a WebGL2 context was obtained
(the state on which `initWebGL` runs during initialization). -/
def freshGlState : MS := { baseState with glPresent := true }

/-- A loading-relevant state whose media element reports natural
dimensions 4 by 3 while the width attribute is the (JS-falsy) number
0 and no height is configured. -/
def zeroWidthState : MS :=
  { baseState with
    glPresent := true
    mediaElement := some { isVideo := false, natW := 4, natH := 3, srcUrl := "image.png" }
    widthAttr := some 0 }

/- ------------------------------------------------------------------ -/
/- Theorems.                                                           -/
/- ------------------------------------------------------------------ -/

theorem dispatchCmds_eq_toList (loc : ℕ) (v : JVal) :
    dispatchCmds loc v = (dispatchSpec loc v).toList := by
  cases v with
  | arr xs =>
    match xs with
    | [] => rfl
    | [_] => rfl
    | [_, _] => rfl
    | [_, _, _] => rfl
    | [_, _, _, _] => rfl
    | _ :: _ :: _ :: _ :: _ :: _ =>
      simp only [dispatchCmds, dispatchSpec]
      split <;> first | rfl | (split <;> rfl)
  | num q =>
    simp only [dispatchCmds, dispatchSpec]
    split <;> rfl
  | bool b => rfl
  | str s => rfl
  | obj fields => rfl
  | null => rfl

theorem applyUniformsAux_eq_filterMap (locs : List (String × ℕ)) (l : UniformObj) :
    applyUniformsAux locs l =
      l.filterMap (fun nv => (findLoc locs nv.1).bind (fun loc => dispatchSpec loc nv.2)) := by
  induction l with
  | nil => rfl
  | cons nv rest ih =>
    obtain ⟨name, v⟩ := nv
    simp only [applyUniformsAux, List.filterMap_cons]
    cases hf : findLoc locs name with
    | none => simpa [hf] using ih
    | some loc =>
      cases hd : dispatchSpec loc v with
      | none => simp [hf, hd, dispatchCmds_eq_toList, ih]
      | some cmd => simp [hf, hd, dispatchCmds_eq_toList, ih]

/-- C5: for every uniform entry with a resolved location,
`applyUniforms` dispatches exactly by value shape — length 2/3/4
arrays as 2/3/4-component float vectors, length 9/16 arrays as
3x3/4x4 matrices without transposition, integers as integer
uniforms, other numbers as float uniforms, booleans as integer 1/0 —
and every other shape (other array lengths, strings, objects, null)
contributes no command: the emitted trace is exactly the per-entry
specification dispatch. -/
theorem applyUniforms_dispatches_by_shape (st : MS) :
    applyUniforms st = applyUniformsSpec st := by
  unfold applyUniforms applyUniformsSpec
  cases st.glPresent <;> cases st.program <;>
    simp [applyUniformsAux_eq_filterMap]

/-- C3 (code bug): on `media-shader.js`, creating the initial default
program during initialization does NOT re-resolve the built-in uniform
handles: on a driver where every compile and link succeeds and every
uniform name resolves, `initWebGL` changes the active program from
none to program 0 yet leaves the uniform-location map empty, although
the driver had a location for `uTime` (and all other built-ins) in
that program. -/
theorem initWebGL_leaves_builtins_unresolved :
    (initWebGL driverAll freshGlState).program = some 0
    ∧ freshGlState.program = none
    ∧ (initWebGL driverAll freshGlState).uniformLocations = []
    ∧ driverAll.uniformLoc 0 "uTime" = some 5 :=
  ⟨rfl, rfl, rfl, rfl⟩

/-- C4 (code bug): from a state with a loaded image (texture sampled,
flag set), clearing the `src` configuration does set the
texture-presence flag to 0, but the stale media element and texture
remain attached, so the very next frame re-uploads the texture, sets
the flag back to 1 and binds `uHasTexture = 1` — not 0 as the claim
requires — so the fallback gradient path is not restored. -/
theorem clear_src_next_frame_rebinds_texture :
    (loadMediaStart 0 1 loadedState none).hasTexture = false
    ∧ (renderBody 0 (loadMediaStart 0 1 loadedState none)).1.hasTexture = true
    ∧ (renderBody 0 (loadMediaStart 0 1 loadedState none)).2 =
        [.viewport 300 150, .clear, .useProgram 0, .bindTexture, .texImage2D,
         .uniform1i 2 1, .useProgram 0, .drawArrays] :=
  ⟨rfl, rfl, rfl⟩

/-- C9: a null or empty (JS-falsy) `uniforms` string does not retain
the previous uniform set: `updateUniforms` replaces the stored set
with the empty set, clearing all previously configured custom
uniforms. -/
theorem updateUniforms_falsy_clears_set (parse : String → Option UniformObj)
    (d : GLDriver) (st : MS) :
    (updateUniforms parse d st none).1.uniforms = []
    ∧ (updateUniforms parse d st (some "")).1.uniforms = [] := by
  constructor <;>
    · unfold updateUniforms
      cases hp : st.program <;>
        simp [jsTruthyStr, hp, updateUniformLocations]

/-- C10: `connectedCallback` wires `mouseleave` to the same
`_onMouseUp` handler as `mouseup`, so the pointer leaving the bounds
is treated exactly like a button release: the click components become
the negated absolute values of the stored click position and the held
flag clears, even though no button-up occurred. -/
theorem mouseleave_same_as_mouseup (cx cy l tp w h : ℚ) (st : MS) :
    dispatchEvent .mouseleave cx cy l tp w h st = dispatchEvent .mouseup cx cy l tp w h st
    ∧ (dispatchEvent .mouseleave cx cy l tp w h st).mouse.z = -|st.mouse.z|
    ∧ (dispatchEvent .mouseleave cx cy l tp w h st).mouse.w = -|st.mouse.w|
    ∧ (dispatchEvent .mouseleave cx cy l tp w h st).isMouseDown = false :=
  ⟨rfl, rfl, rfl, rfl⟩

/-- C1: `updateShader` is an atomic swap.  If the context is missing,
either stage fails to compile, or the new program fails to link, then
the active program field, the stored custom uniform set and the
program-deletion ledger are all left unchanged (the old program is
neither replaced nor deleted); only when both stages compile and the
new program links is the old program deleted and the program field
moved to the freshly allocated program, still leaving the uniform set
unchanged. -/
theorem updateShader_atomic_swap (d : GLDriver) (st : MS) (f : String) :
    (st.glPresent = false
      ∨ ¬ (d.compileOk .vertex vertexShaderSource = true
            ∧ d.compileOk .fragment f = true
            ∧ d.linkOk vertexShaderSource f = true) →
      (updateShader d st f).1.program = st.program
      ∧ (updateShader d st f).1.uniforms = st.uniforms
      ∧ (updateShader d st f).1.deletedPrograms = st.deletedPrograms)
    ∧ (st.glPresent = true
        ∧ d.compileOk .vertex vertexShaderSource = true
        ∧ d.compileOk .fragment f = true
        ∧ d.linkOk vertexShaderSource f = true →
      (updateShader d st f).1.program = some st.nextProg
      ∧ (updateShader d st f).1.uniforms = st.uniforms
      ∧ (updateShader d st f).1.deletedPrograms =
          (match st.program with
           | some old => old :: st.deletedPrograms
           | none => st.deletedPrograms)) := by
  unfold updateShader createShader
  constructor
  · intro hfail
    cases hgl : st.glPresent with
    | false => simp [hgl]
    | true =>
      simp only [hgl, Bool.true_eq_false, false_or] at hfail
      cases hv : d.compileOk .vertex vertexShaderSource with
      | false => simp [hgl, hv]
      | true =>
        cases hf2 : d.compileOk .fragment f with
        | false => simp [hgl, hv, hf2]
        | true =>
          cases hl : d.linkOk vertexShaderSource f with
          | false => simp [hgl, hv, hf2, hl]
          | true => exact absurd ⟨hv, hf2, hl⟩ hfail
  · rintro ⟨hgl, hv, hf2, hl⟩
    cases hp : st.program <;>
      simp [hgl, hv, hf2, hl, hp, updateUniformLocations]

theorem updateShader_atomic_swap_witness :
    (updateShader driverNoCompile { loadedState with program := some 7 } "frag").1.program =
      ({ loadedState with program := some 7 } : MS).program
    ∧ (updateShader driverNoCompile { loadedState with program := some 7 } "frag").1.uniforms =
      ({ loadedState with program := some 7 } : MS).uniforms
    ∧ (updateShader driverNoCompile { loadedState with program := some 7 } "frag").1.deletedPrograms =
      ({ loadedState with program := some 7 } : MS).deletedPrograms :=
  (updateShader_atomic_swap driverNoCompile { loadedState with program := some 7 } "frag").1
    (Or.inr (by decide))

/-- C2 (corrected): for every nonempty string on which the JSON parse
throws, `updateUniforms` leaves the whole component state — in
particular the stored uniform set and the resolved uniform locations —
exactly as it was; the error is caught, so no exception propagates
(the model is a total function).  The empty string is excluded: being
JS-falsy it takes the replace-with-empty-set path instead (see the
counterexample). -/
theorem updateUniforms_parse_failure_preserves
    (parse : String → Option UniformObj) (d : GLDriver) (st : MS) (s : String)
    (hs : s ≠ "") (hp : parse s = none) :
    (updateUniforms parse d st (some s)).1 = st := by
  simp [updateUniforms, jsTruthyStr, hs, hp]

theorem updateUniforms_parse_failure_preserves_witness :
    ("x" ≠ "" ∧ parseNone "x" = none)
    ∧ (updateUniforms parseNone driverAll oneUniformState (some "x")).1 = oneUniformState :=
  ⟨⟨by decide, rfl⟩,
   updateUniforms_parse_failure_preserves parseNone driverAll oneUniformState "x"
     (by decide) rfl⟩

/-- C2 counterexample: the empty string is not valid JSON
(`JSON.parse` throws on it; the parse oracle here fails on every
string), yet passing it to `updateUniforms` does not leave the stored
uniform set as it was: being falsy it replaces the set with the empty
set, dropping the previously configured uniform. -/
theorem updateUniforms_empty_string_clears :
    parseNone "" = none
    ∧ oneUniformState.uniforms = [("a", JVal.num 1)]
    ∧ (updateUniforms parseNone driverAll oneUniformState (some "")).1.uniforms = []
    ∧ (([] : UniformObj) ≠ [("a", JVal.num 1)]) :=
  ⟨rfl, rfl, rfl, by simp⟩

/-- C7 (corrected): for a pointer-down anywhere over the component
(a bounding box of positive size), the click components `uMouse.z/.w`
(`mouseData[2]/[3]`) are non-negative while the button is held — and
strictly positive whenever the pointer is strictly inside the left and
top edges — and immediately after release each equals exactly the
negation of its absolute value: a non-positive value whose magnitude
is the stored click position, the sign alone encoding the button
state.  At the exact left or top edge the held value is 0, not
positive, which is the single correction to the claim (see the
counterexample). -/
theorem mouse_click_sign_encoding (cx cy l tp w h : ℚ) (st : MS)
    (hw : 0 < w) (hh : 0 < h)
    (hx1 : l ≤ cx) (hx2 : cx ≤ l + w) (hy1 : tp ≤ cy) (hy2 : cy ≤ tp + h) :
    let dn := onMouseDown cx cy l tp w h st
    let up := onMouseUp dn
    (dn.isMouseDown = true
      ∧ 0 ≤ dn.mouse.z ∧ dn.mouse.z ≤ 1 ∧ 0 ≤ dn.mouse.w ∧ dn.mouse.w ≤ 1)
    ∧ (l < cx → 0 < dn.mouse.z) ∧ (tp < cy → 0 < dn.mouse.w)
    ∧ (up.isMouseDown = false
      ∧ up.mouse.z = -|dn.mouse.z| ∧ up.mouse.w = -|dn.mouse.w|
      ∧ up.mouse.z ≤ 0 ∧ up.mouse.w ≤ 0
      ∧ |up.mouse.z| = |dn.mouse.z| ∧ |up.mouse.w| = |dn.mouse.w|) := by
  dsimp only [onMouseDown, onMouseUp]
  refine ⟨⟨rfl, ?_, ?_, ?_, ?_⟩, ?_, ?_, rfl, rfl, rfl, ?_, ?_, ?_, ?_⟩
  · exact div_nonneg (sub_nonneg.mpr hx1) hw.le
  · rw [div_le_one hw]; linarith
  · exact div_nonneg (sub_nonneg.mpr hy1) hh.le
  · rw [div_le_one hh]; linarith
  · intro hlt; exact div_pos (sub_pos.mpr hlt) hw
  · intro hlt; exact div_pos (sub_pos.mpr hlt) hh
  · exact neg_nonpos.mpr (abs_nonneg _)
  · exact neg_nonpos.mpr (abs_nonneg _)
  · rw [abs_neg, abs_abs]
  · rw [abs_neg, abs_abs]

theorem mouse_click_sign_encoding_witness :
    ((0 : ℚ) < 2 ∧ (0 : ℚ) < 2
      ∧ (0 : ℚ) ≤ 1 ∧ (1 : ℚ) ≤ 0 + 2 ∧ (0 : ℚ) ≤ 1 ∧ (1 : ℚ) ≤ 0 + 2)
    ∧ (let dn := onMouseDown 1 1 0 0 2 2 baseState
       let up := onMouseUp dn
       (dn.isMouseDown = true
         ∧ 0 ≤ dn.mouse.z ∧ dn.mouse.z ≤ 1 ∧ 0 ≤ dn.mouse.w ∧ dn.mouse.w ≤ 1)
       ∧ ((0 : ℚ) < 1 → 0 < dn.mouse.z) ∧ ((0 : ℚ) < 1 → 0 < dn.mouse.w)
       ∧ (up.isMouseDown = false
         ∧ up.mouse.z = -|dn.mouse.z| ∧ up.mouse.w = -|dn.mouse.w|
         ∧ up.mouse.z ≤ 0 ∧ up.mouse.w ≤ 0
         ∧ |up.mouse.z| = |dn.mouse.z| ∧ |up.mouse.w| = |dn.mouse.w|)) :=
  ⟨by norm_num,
   mouse_click_sign_encoding 1 1 0 0 2 2 baseState
     (by norm_num) (by norm_num) (by norm_num) (by norm_num) (by norm_num) (by norm_num)⟩

/-- C7 counterexample: a pointer-down at the exact left edge of the
component (clientX equal to the left of the bounding box) stores a
click x component of 0 — which is not positive — while the button is
held, refuting the claim that `uMouse.z` is positive throughout every
held press over the component. -/
theorem mouse_click_edge_not_positive :
    (onMouseDown 0 5 0 0 10 10 baseState).isMouseDown = true
    ∧ (onMouseDown 0 5 0 0 10 10 baseState).mouse.z = 0
    ∧ ¬ (0 < (onMouseDown 0 5 0 0 10 10 baseState).mouse.z) := by
  refine ⟨rfl, ?_, ?_⟩
  · show ((0 : ℚ) - 0) / 10 = 0
    norm_num
  · show ¬ (0 < ((0 : ℚ) - 0) / 10)
    norm_num

/-- C8 (corrected): for a component whose media element has known
(nonzero) natural dimensions, a nonzero configured `width` and no
configured `height`, `updateCanvasSize` sets the CSS height to
`round(width * naturalHeight / naturalWidth)` and the backing-store
height to that CSS height scaled by the device pixel ratio (and
rounded).  A configured width of 0 is excluded: 0 is JS-falsy, so the
code treats it as no width at all (see the counterexample). -/
theorem canvas_height_keeps_aspect_ratio (dpr : ℚ) (st : MS) (m : MediaEl) (wv : ℤ)
    (hm : st.mediaElement = some m) (hnw : m.natW ≠ 0) (hnh : m.natH ≠ 0)
    (hw : st.widthAttr = some wv) (hwnz : wv ≠ 0) (hh : st.heightAttr = none) :
    (updateCanvasSize dpr st).styleH =
      some (jsRound ((wv : ℚ) * ((m.natH : ℚ) / (m.natW : ℚ))))
    ∧ (updateCanvasSize dpr st).canvasH =
      jsRound ((jsRound ((wv : ℚ) * ((m.natH : ℚ) / (m.natW : ℚ))) : ℚ) * dpr) := by
  unfold updateCanvasSize
  simp [hm, hnw, hnh, hw, hh, hwnz, jsTruthyInt, jsNumOf]

theorem canvas_height_keeps_aspect_ratio_witness :
    (widthOnlyState.mediaElement = some imageMedia
      ∧ imageMedia.natW ≠ 0 ∧ imageMedia.natH ≠ 0
      ∧ widthOnlyState.widthAttr = some 100
      ∧ (100 : ℤ) ≠ 0
      ∧ widthOnlyState.heightAttr = none)
    ∧ ((updateCanvasSize 2 widthOnlyState).styleH =
        some (jsRound ((100 : ℚ) * ((imageMedia.natH : ℚ) / (imageMedia.natW : ℚ))))
      ∧ (updateCanvasSize 2 widthOnlyState).canvasH =
        jsRound ((jsRound ((100 : ℚ) * ((imageMedia.natH : ℚ) / (imageMedia.natW : ℚ))) : ℚ) * 2)) :=
  ⟨⟨rfl, by decide, by decide, rfl, by decide, rfl⟩,
   canvas_height_keeps_aspect_ratio 2 widthOnlyState imageMedia 100 rfl (by decide)
     (by decide) rfl (by decide) rfl⟩

/-- C8 counterexample: with only `width` configured but equal to 0 (a
JS-falsy number) and a loaded 4 by 3 media source at device pixel
ratio 1, the claim formula demands a backing-store height of
`round(0 * 3 / 4) = 0`, but the code treats the zero width as
unconfigured and uses the natural dimensions, producing height 3. -/
theorem canvas_height_zero_width_mismatch :
    zeroWidthState.widthAttr = some 0
    ∧ zeroWidthState.heightAttr = none
    ∧ (updateCanvasSize 1 zeroWidthState).canvasH = 3
    ∧ jsRound ((0 : ℚ) * ((3 : ℚ) / (4 : ℚ))) = 0
    ∧ (3 : ℤ) ≠ 0 := by
  refine ⟨rfl, rfl, ?_, ?_, by decide⟩
  · unfold updateCanvasSize zeroWidthState baseState
    norm_num [jsTruthyInt, jsNumOf, jsRound]
  · norm_num [jsRound]

theorem loopInv_congr {st st' : MS}
    (ha : st'.animationFrame = st.animationFrame)
    (hp : st'.pending = st.pending)
    (hg : st'.glPresent = st.glPresent)
    (hpr : st.program.isSome = true → st'.program.isSome = true)
    (hl : st'.isLoaded = st.isLoaded)
    (h : LoopInv st) : LoopInv st' := by
  obtain ⟨h1, h2, h3, h4⟩ := h
  refine ⟨?_, ?_, ?_, ?_⟩
  · intro id hid
    rw [ha] at hid
    obtain ⟨hgl, hprog⟩ := h1 id hid
    exact ⟨hg.trans hgl, hpr hprog⟩
  · rw [hp]; exact h2
  · intro id hid
    rw [hp] at hid
    rw [ha]; exact h3 id hid
  · intro hload
    rw [hl] at hload
    obtain ⟨hgl, haf⟩ := h4 hload
    exact ⟨hg.trans hgl, ha.trans haf⟩

theorem pending_nil_of_af_none {st : MS} (h : LoopInv st)
    (ha : st.animationFrame = none) : st.pending = [] := by
  obtain ⟨-, -, h3, -⟩ := h
  cases hp : st.pending with
  | nil => rfl
  | cons a l =>
    have hmem := h3 a (by rw [hp]; exact List.mem_cons_self a l)
    rw [ha] at hmem
    cases hmem

theorem pending_erase_af {st : MS} (h : LoopInv st) (id : ℕ)
    (ha : st.animationFrame = some id) : st.pending.erase id = [] := by
  obtain ⟨-, h2, h3, -⟩ := h
  cases hp : st.pending with
  | nil => rfl
  | cons a l =>
    have haid := h3 a (by rw [hp]; exact List.mem_cons_self a l)
    rw [ha] at haid
    injection haid with haid
    have hl : l = [] := by
      rw [hp, List.length_cons] at h2
      exact List.length_eq_zero.mp (Nat.le_zero.mp (Nat.le_of_succ_le_succ h2))
    subst hl
    simp [List.erase_cons, haid]

theorem pending_erase_mem {st : MS} (h : LoopInv st) (id : ℕ)
    (hid : id ∈ st.pending) : st.pending.erase id = [] := by
  obtain ⟨-, h2, -, -⟩ := h
  cases hp : st.pending with
  | nil => rfl
  | cons a l =>
    have hl : l = [] := by
      rw [hp, List.length_cons] at h2
      exact List.length_eq_zero.mp (Nat.le_zero.mp (Nat.le_of_succ_le_succ h2))
    subst hl
    rw [hp] at hid
    simp only [List.mem_singleton] at hid
    simp [List.erase_cons, hid]

theorem renderBail_proj (st : MS) :
    (renderBail st).animationFrame = none
    ∧ (renderBail st).glPresent = st.glPresent
    ∧ (renderBail st).program = st.program
    ∧ (renderBail st).isLoaded = st.isLoaded
    ∧ (renderBail st).pending =
        (match st.animationFrame with
         | some id => st.pending.erase id
         | none => st.pending) := by
  unfold renderBail cancelFrame
  cases st.animationFrame <;> simp

theorem renderBody_bail (now : ℚ) (st : MS)
    (h : st.glPresent = false ∨ st.program = none) :
    (renderBody now st).1 = renderBail st := by
  unfold renderBody
  cases hgl : st.glPresent <;> cases hpr : st.program <;> simp_all

theorem renderBody_main_proj (now : ℚ) (st : MS) (p : ℕ)
    (hgl : st.glPresent = true) (hp : st.program = some p) :
    (renderBody now st).1.glPresent = st.glPresent
    ∧ (renderBody now st).1.program = st.program
    ∧ (renderBody now st).1.animationFrame = some st.nextFrame
    ∧ (renderBody now st).1.pending = st.pending ++ [st.nextFrame]
    ∧ (renderBody now st).1.isLoaded = st.isLoaded := by
  unfold renderBody
  simp [hgl, hp]

theorem renderBody_loopInv (now : ℚ) {st : MS}
    (hpend : st.pending = [])
    (h4 : st.isLoaded = false → st.glPresent = false) :
    LoopInv (renderBody now st).1 := by
  by_cases hmiss : st.glPresent = false ∨ st.program = none
  · rw [renderBody_bail now st hmiss]
    obtain ⟨ba, bg, bp, bl, bpend⟩ := renderBail_proj st
    have hpend2 : (renderBail st).pending = [] := by
      rw [bpend]; cases st.animationFrame <;> simp [hpend]
    refine ⟨?_, ?_, ?_, ?_⟩
    · intro id hid; rw [ba] at hid; cases hid
    · rw [hpend2]; simp
    · intro id hid; rw [hpend2] at hid; cases hid
    · intro hload
      rw [bl] at hload
      exact ⟨bg.trans (h4 hload), ba⟩
  · push_neg at hmiss
    obtain ⟨hgl, hprog⟩ := hmiss
    have hgl2 : st.glPresent = true := by
      cases hb : st.glPresent
      · exact absurd hb hgl
      · rfl
    obtain ⟨p, hp⟩ := Option.ne_none_iff_exists.mp hprog
    obtain ⟨mg, mp, ma, mpd, ml⟩ := renderBody_main_proj now st p hgl2 hp.symm
    refine ⟨?_, ?_, ?_, ?_⟩
    · intro id _
      refine ⟨mg.trans hgl2, ?_⟩
      rw [mp, ← hp]; rfl
    · rw [mpd, hpend]; simp
    · intro id hid
      rw [mpd, hpend] at hid
      simp only [List.nil_append, List.mem_singleton] at hid
      rw [ma, hid]
    · intro hload
      rw [ml] at hload
      have := h4 hload
      rw [hgl2] at this
      cases this

theorem startRenderLoop_loopInv (now : ℚ) {st : MS} (h : LoopInv st) :
    LoopInv (startRenderLoop now st).1 := by
  unfold startRenderLoop
  cases hgl : st.glPresent with
  | false => simpa using h
  | true =>
    cases hpr : st.program with
    | none => simpa using h
    | some p =>
      simp only
      cases haf : st.animationFrame with
      | none =>
        simp only [haf]
        exact renderBody_loopInv now (pending_nil_of_af_none h haf)
          (fun hl => (h.2.2.2 hl).1)
      | some id =>
        simp only [haf]
        exact renderBody_loopInv now
          (pending_erase_af h id haf) (fun hl => (h.2.2.2 hl).1)

theorem updateShader_proj (d : GLDriver) (st : MS) (f : String) :
    (updateShader d st f).1.animationFrame = st.animationFrame
    ∧ (updateShader d st f).1.pending = st.pending
    ∧ (updateShader d st f).1.glPresent = st.glPresent
    ∧ (updateShader d st f).1.isLoaded = st.isLoaded
    ∧ (st.program.isSome = true → (updateShader d st f).1.program.isSome = true) := by
  unfold updateShader createShader updateUniformLocations
  split
  · simp
  · split
    · split
      · simp
      · cases hsp : st.program <;> simp [hsp]
    · simp

theorem updateUniforms_proj (parse : String → Option UniformObj) (d : GLDriver)
    (st : MS) (u : Option String) :
    (updateUniforms parse d st u).1.animationFrame = st.animationFrame
    ∧ (updateUniforms parse d st u).1.pending = st.pending
    ∧ (updateUniforms parse d st u).1.glPresent = st.glPresent
    ∧ (updateUniforms parse d st u).1.program = st.program
    ∧ (updateUniforms parse d st u).1.isLoaded = st.isLoaded := by
  unfold updateUniforms updateUniformLocations
  split
  · dsimp only
    split
    · simp
    · split <;> simp
  · dsimp only
    split <;> simp

theorem updateCanvasSize_proj (dpr : ℚ) (st : MS) :
    (updateCanvasSize dpr st).animationFrame = st.animationFrame
    ∧ (updateCanvasSize dpr st).pending = st.pending
    ∧ (updateCanvasSize dpr st).glPresent = st.glPresent
    ∧ (updateCanvasSize dpr st).program = st.program
    ∧ (updateCanvasSize dpr st).isLoaded = st.isLoaded := by
  unfold updateCanvasSize
  cases hm : st.mediaElement with
  | none => simp
  | some m =>
    simp only
    split <;> simp

theorem initWebGL_proj (d : GLDriver) (st : MS) :
    (initWebGL d st).animationFrame = st.animationFrame
    ∧ (initWebGL d st).pending = st.pending
    ∧ (initWebGL d st).glPresent = st.glPresent
    ∧ (initWebGL d st).isLoaded = st.isLoaded := by
  unfold initWebGL createShader
  split
  · simp
  · split
    · split <;> simp
    · simp

theorem createTexture_loopInv {st : MS} (h : LoopInv st) :
    LoopInv (createTexture st) := by
  unfold createTexture
  split
  · exact h
  · exact loopInv_congr rfl rfl rfl (fun hx => hx) rfl h

theorem cleanup_loopInv {st : MS} (h : LoopInv st) : LoopInv (cleanup st) := by
  unfold cleanup
  split
  · exact h
  · cases haf : st.animationFrame with
    | some id =>
      simp only [haf]
      have hpe : st.pending.erase id = [] := pending_erase_af h id haf
      split
      · refine ⟨?_, ?_, ?_, ?_⟩
        · intro j hj; simp at hj
        · simp [cancelFrame, hpe]
        · intro j hj; simp [cancelFrame, hpe] at hj
        · intro hl; exact ⟨rfl, rfl⟩
      · rename_i hglf
        refine ⟨?_, ?_, ?_, ?_⟩
        · intro j hj; simp at hj
        · simp [cancelFrame, hpe]
        · intro j hj; simp [cancelFrame, hpe] at hj
        · intro hl
          refine ⟨?_, rfl⟩
          show st.glPresent = false
          simpa [cancelFrame] using hglf
    | none =>
      simp only [haf]
      have hpe : st.pending = [] := pending_nil_of_af_none h haf
      split
      · refine ⟨?_, ?_, ?_, ?_⟩
        · intro j hj; simp at hj
        · simp [hpe]
        · intro j hj; simp [hpe] at hj
        · intro hl; exact ⟨rfl, rfl⟩
      · rename_i hglf
        refine ⟨?_, ?_, ?_, ?_⟩
        · intro j hj; simp at hj
        · simp [hpe]
        · intro j hj
          have hj2 : j ∈ st.pending := hj
          rw [hpe] at hj2; cases hj2
        · intro hl
          refine ⟨?_, rfl⟩
          show st.glPresent = false
          simpa using hglf

theorem initializeComponent_loopInv {st : MS} (h : LoopInv st)
    (d : GLDriver) (glOk : Bool) : LoopInv (initializeComponent d glOk st) := by
  unfold initializeComponent
  split
  · exact h
  · rename_i hnl
    have hload : st.isLoaded = false := by
      cases hb : st.isLoaded
      · rfl
      · exact absurd hb hnl
    obtain ⟨hgl0, haf0⟩ := h.2.2.2 hload
    have hpend0 : st.pending = [] := pending_nil_of_af_none h haf0
    split
    · rename_i hglOk
      refine ⟨?_, ?_, ?_, ?_⟩
      · intro j hj
        have hj2 : st.animationFrame = some j := hj
        rw [haf0] at hj2; cases hj2
      · show st.pending.length ≤ 1
        rw [hpend0]; simp
      · intro j hj
        have hj2 : j ∈ st.pending := hj
        rw [hpend0] at hj2; cases hj2
      · intro hl; exact ⟨hglOk, haf0⟩
    · obtain ⟨ia, ip, ig, il⟩ := initWebGL_proj d { st with glPresent := glOk }
      have ia2 : (initWebGL d { st with glPresent := glOk }).animationFrame = none := by
        rw [ia]; exact haf0
      have ip2 : (initWebGL d { st with glPresent := glOk }).pending = [] := by
        rw [ip]; exact hpend0
      refine ⟨fun j hj => ?_, ?_, fun j hj => ?_, fun hl => ?_⟩
      · have hj2 : (initWebGL d { st with glPresent := glOk }).animationFrame = some j := hj
        rw [ia2] at hj2
        cases hj2
      · show (initWebGL d { st with glPresent := glOk }).pending.length ≤ 1
        rw [ip2]; simp
      · have hj2 : j ∈ (initWebGL d { st with glPresent := glOk }).pending := hj
        rw [ip2] at hj2
        cases hj2
      · have hcontra : (true : Bool) = false := hl
        cases hcontra

theorem loadMediaNew_loopInv {st : MS} (h : LoopInv st) (s : String) :
    LoopInv (loadMediaNew st s) := by
  unfold loadMediaNew
  cases hm : st.mediaElement with
  | none =>
    simp only
    exact loopInv_congr rfl rfl rfl (fun hx => hx) rfl h
  | some m =>
    simp only
    cases haf : st.animationFrame with
    | some id =>
      simp only [haf]
      have hpe : st.pending.erase id = [] := pending_erase_af h id haf
      refine ⟨?_, ?_, ?_, ?_⟩
      · intro j hj; simp at hj
      · simp [cancelFrame, hpe]
      · intro j hj; simp [cancelFrame, hpe] at hj
      · intro hl; exact ⟨(h.2.2.2 hl).1, rfl⟩
    | none =>
      simp only [haf]
      refine ⟨?_, ?_, ?_, ?_⟩
      · intro j hj; simp at hj
      · show st.pending.length ≤ 1
        exact h.2.1
      · intro j hj
        have hj2 : j ∈ st.pending := hj
        rw [pending_nil_of_af_none h haf] at hj2
        cases hj2
      · intro hl; exact ⟨(h.2.2.2 hl).1, rfl⟩

theorem updateCanvasSize_loopInv {st : MS} (h : LoopInv st) (dpr : ℚ) :
    LoopInv (updateCanvasSize dpr st) := by
  obtain ⟨c1, c2, c3, c4, c5⟩ := updateCanvasSize_proj dpr st
  refine loopInv_congr c1 c2 c3 ?_ c5 h
  rw [c4]; exact fun hx => hx

theorem loadMediaStart_loopInv {st : MS} (h : LoopInv st)
    (now dpr : ℚ) (src : Option String) :
    LoopInv (loadMediaStart now dpr st src) := by
  unfold loadMediaStart
  split
  · exact loopInv_congr rfl rfl rfl (fun hx => hx) rfl h
  · split
    · exact h
    · cases hm : st.mediaElement with
      | some m =>
        simp only
        split
        · apply startRenderLoop_loopInv
          apply createTexture_loopInv
          apply updateCanvasSize_loopInv
          exact loopInv_congr rfl rfl rfl (fun hx => hx) rfl h
        · exact loadMediaNew_loopInv h _
      | none =>
        simp only
        exact loadMediaNew_loopInv h _

theorem mediaLoadHandler_loopInv {st : MS} (h : LoopInv st)
    (now dpr : ℚ) (nw nh : ℕ) :
    LoopInv (mediaLoadHandler now dpr nw nh st) := by
  unfold mediaLoadHandler
  cases hm : st.mediaElement with
  | none => exact h
  | some m =>
    simp only
    apply startRenderLoop_loopInv
    apply createTexture_loopInv
    apply updateCanvasSize_loopInv
    exact loopInv_congr rfl rfl rfl (fun hx => hx) rfl h

theorem mediaLoadError_loopInv {st : MS} (h : LoopInv st) :
    LoopInv (mediaLoadError st) := by
  unfold mediaLoadError
  cases hm : st.mediaElement with
  | none => exact h
  | some m => exact loopInv_congr rfl rfl rfl (fun hx => hx) rfl h

theorem dispatchEvent_loopInv {st : MS} (h : LoopInv st)
    (t : EventType) (cx cy l tp w hh : ℚ) :
    LoopInv (dispatchEvent t cx cy l tp w hh st) := by
  cases t with
  | mousemove =>
    show LoopInv (onMouseMove cx cy l tp w hh st)
    unfold onMouseMove
    exact loopInv_congr rfl rfl rfl (fun hx => hx) rfl h
  | mousedown =>
    show LoopInv (onMouseDown cx cy l tp w hh st)
    exact loopInv_congr rfl rfl rfl (fun hx => hx) rfl h
  | mouseup =>
    show LoopInv (onMouseUp st)
    exact loopInv_congr rfl rfl rfl (fun hx => hx) rfl h
  | mouseleave =>
    show LoopInv (onMouseUp st)
    exact loopInv_congr rfl rfl rfl (fun hx => hx) rfl h

theorem step_preserves_loopInv {parse : String → Option UniformObj} {d : GLDriver}
    {st st' : MS} (hs : Step parse d st st') (h : LoopInv st) : LoopInv st' := by
  cases hs with
  | attrShader f =>
    obtain ⟨p1, p2, p3, p4, p5⟩ := updateShader_proj d st f
    exact loopInv_congr p1 p2 p3 p5 p4 h
  | attrUniforms u =>
    obtain ⟨p1, p2, p3, p4, p5⟩ := updateUniforms_proj parse d st u
    refine loopInv_congr p1 p2 p3 ?_ p5 h
    rw [p4]; exact fun hx => hx
  | attrWidth v dpr =>
    apply updateCanvasSize_loopInv
    exact loopInv_congr rfl rfl rfl (fun hx => hx) rfl h
  | attrHeight v dpr =>
    apply updateCanvasSize_loopInv
    exact loopInv_congr rfl rfl rfl (fun hx => hx) rfl h
  | startLoop now => exact startRenderLoop_loopInv now h
  | frameTick now id hid =>
    exact renderBody_loopInv now (pending_erase_mem h id hid)
      (fun hl => (h.2.2.2 hl).1)
  | doCleanup => exact cleanup_loopInv h
  | initComp glOk => exact initializeComponent_loopInv h d glOk
  | mediaStart src now dpr => exact loadMediaStart_loopInv h now dpr src
  | mediaLoaded now dpr nw nh => exact mediaLoadHandler_loopInv h now dpr nw nh
  | mediaError => exact mediaLoadError_loopInv h
  | mouseEvent t cx cy l tp w hh => exact dispatchEvent_loopInv h t cx cy l tp w hh

theorem loopInv_baseState : LoopInv baseState := by
  refine ⟨?_, ?_, ?_, ?_⟩
  · intro j hj; simp [baseState] at hj
  · simp [baseState]
  · intro j hj; simp [baseState] at hj
  · intro _; exact ⟨rfl, rfl⟩

/-- C6: in every reachable component state, a frame callback is
scheduled (a stored handle exists) only while both a valid GL context
and a valid program exist, and at most one frame callback is pending
at the host (starting the loop first cancels any prior schedule,
so there are never duplicate loops); moreover, when a tick runs in a
state missing the context or the program, the loop transitions to
stopped: the handle is cleared, the pending schedule is cancelled and
no new frame is scheduled. -/
theorem render_loop_schedule_invariant (parse : String → Option UniformObj)
    (d : GLDriver) (st : MS) (h : Reachable parse d st) :
    LoopInv st
    ∧ (st.glPresent = false ∨ st.program = none →
        ∀ now, (renderBody now st).1.animationFrame = none
          ∧ (renderBody now st).1.pending = []) := by
  have hinv : LoopInv st := by
    induction h with
    | refl => exact loopInv_baseState
    | tail _ hstep ih => exact step_preserves_loopInv hstep ih
  refine ⟨hinv, ?_⟩
  intro hmiss now
  have haf : st.animationFrame = none := by
    cases haf : st.animationFrame with
    | none => rfl
    | some id =>
      obtain ⟨hg, hp⟩ := hinv.1 id haf
      cases hmiss with
      | inl h1 => rw [hg] at h1; cases h1
      | inr h2 => rw [h2] at hp; cases hp
  have hpend : st.pending = [] := pending_nil_of_af_none hinv haf
  rw [renderBody_bail now st hmiss]
  obtain ⟨ba, -, -, -, bpend⟩ := renderBail_proj st
  refine ⟨ba, ?_⟩
  rw [bpend, haf]
  exact hpend

theorem render_loop_schedule_invariant_witness :
    Reachable parseNone driverAll baseState
    ∧ (LoopInv baseState
      ∧ (baseState.glPresent = false ∨ baseState.program = none →
          ∀ now, (renderBody now baseState).1.animationFrame = none
            ∧ (renderBody now baseState).1.pending = [])) :=
  ⟨Relation.ReflTransGen.refl,
   render_loop_schedule_invariant parseNone driverAll baseState
     Relation.ReflTransGen.refl⟩

end MediaShaderModel
